import Mathlib

/-!
Shallow embedding of the qnap-exporter metric collection core
(lib/exporter/prometheus/prometheus.go and network.go).

Modelling conventions:
* Go `time.Time` instants and durations are modelled as natural numbers (seconds);
  `time.Now().After(x)` becomes `x < now`.
* Go `float64` is Lean `Float`; float values are carried opaquely (never computed on),
  since the exposition of the numeric token (`%g`) is floating-point formatting.
* Fallible Go calls `(T, error)` become `Except String T` or `T × Option String`
  (Go producer functions return the pair `(metrics, err)`, modelled verbatim).
* External collaborators (filesystem reads, subprocess execution, speedtest library
  calls) are parameters of the definitions that call them.
* The goroutine fan-out of `WriteMetrics` is modelled functionally: each worker
  contributes exactly one message, and the nondeterministic arrival order at the
  shared channel is an arbitrary permutation of the per-producer message list.
-/

/-- Environment cache TTL `envValidity = 5 * time.Minute` (prometheus.go line 24),
in seconds. -/
def envValidity : Nat := 300

/-- Speedtest TTL `speedtestValidity = 1 * time.Hour` (network.go line 15), in seconds. -/
def speedtestValidity : Nat := 3600

/-- Models Go `strings.HasPrefix s p` (byte-wise prefix; the device and interface
names involved are ASCII, so chars coincide with bytes). -/
def hasPre (s p : String) : Bool := p.data.isPrefixOf s.data

/-- Metric value object (`struct metric`), fields as used by prometheus.go and
network.go: name, pre-formatted label fragment `attr`, float64 value, optional help
text, optional type, optional timestamp. -/
structure Metric where
  name : String
  attr : String
  value : Float
  help : String
  metricType : String
  timestamp : Nat

/-- Directory entry as returned by `ioutil.ReadDir`: file name and directory flag. -/
structure DirEntry where
  name : String
  isDir : Bool
deriving DecidableEq

/-- Slice of the `promExporter` state owned by the environment cache:
`ifaces`, `devices`, `envExpiry` (prometheus.go lines 43-46). -/
structure EnvState where
  ifaces : List String
  devices : List String
  envExpiry : Nat
deriving DecidableEq

/-- Interface loop of `readEnvironment` (prometheus.go lines 195-204): keep each
entry name that has prefix `"eth"`, skipping the rest (`continue`). -/
def readIfaces : List DirEntry → List String
  | [] => []
  | d :: rest =>
    if !(hasPre d.name "eth") then readIfaces rest
    else d.name :: readIfaces rest

/-- Device loop of `readEnvironment` (prometheus.go lines 206-221): skip directories
and names with neither prefix `"nvme"` nor `"sd"`; then skip `nvme`-prefixed names
whose length is not 7 and `sd`-prefixed names whose length is not 3 (the Go `switch`
with `continue`); keep everything else.  Go `len` is byte length, which equals
`String.length` on these ASCII names. -/
def readDevices : List DirEntry → List String
  | [] => []
  | d :: rest =>
    if d.isDir || (!(hasPre d.name "nvme") && !(hasPre d.name "sd")) then readDevices rest
    else if hasPre d.name "nvme" && d.name.length != 7 then readDevices rest
    else if hasPre d.name "sd" && d.name.length != 3 then readDevices rest
    else d.name :: readDevices rest

/-- Pure content of `readEnvironment` (prometheus.go lines 155-230) on the modelled
state: rebuild `ifaces` and `devices` from the two directory listings and advance the
expiry by `envValidity` from the previously stored expiry (line 224:
`e.envExpiry = e.envExpiry.Add(envValidity)`).  The hostname/tool discovery parts
touch no field the claims are about and degrade gracefully, so they are omitted. -/
def readEnvironment (netInfo devInfo : List DirEntry) (st : EnvState) : EnvState :=
  { ifaces := readIfaces netInfo
    devices := readDevices devInfo
    envExpiry := st.envExpiry + envValidity }

/-- Environment freshness check of `WriteMetrics` (prometheus.go lines 96-98):
`if time.Now().After(e.envExpiry) { e.readEnvironment() }`.  Returns whether a
discovery pass ran together with the updated state. -/
def ensureFreshEnv (now : Nat) (netInfo devInfo : List DirEntry) (st : EnvState) :
    Bool × EnvState :=
  if st.envExpiry < now then (true, readEnvironment netInfo devInfo st) else (false, st)

/-- Modelled from the spec words of the device filter, for comparison with
`readDevices`: a qualifying device name starts with `nvme` and has length 7, or
starts with `sd` and has length 3. -/
def specDeviceOk (s : String) : Bool :=
  (hasPre s "nvme" && s.length == 7) || (hasPre s "sd" && s.length == 3)

/-- Message pushed on the shared channel by one worker: either one metric batch or
one error (the untyped `chan interface{}` payload of prometheus.go line 101). -/
inductive Msg where
  | metrics (ms : List Metric)
  | error (e : String)

/-- Wrapped producer error text of prometheus.go line 140:
`fmt.Errorf("retrieve metric #%d: %w", 1+idx, err)` with 0-based `idx`. -/
def errMsg (idx : Nat) (cause : String) : String :=
  "retrieve metric #" ++ Nat.repr (1 + idx) ++ ": " ++ cause

/-- Worker body `fetchMetricsWorker` (prometheus.go lines 135-145): invoke the
producer (whose Go result is the pair `(metrics, err)`) and push exactly one
message: the wrapped error if `err != nil`, else the metric batch. -/
def fetchMetricsWorker (idx : Nat) (r : List Metric × Option String) : Msg :=
  match r.2 with
  | some e => Msg.error (errMsg idx e)
  | none => Msg.metrics r.1

/-- One message per producer, tagged with consecutive 0-based indices starting at
`start` (the `for idx, fn := range e.fns` loop of prometheus.go lines 102-106). -/
def collectMsgs (start : Nat) : List (List Metric × Option String) → List Msg
  | [] => []
  | r :: rs => fetchMetricsWorker start r :: collectMsgs (start + 1) rs

/-- One output line of the exposition response.  A `value` line carries the full
metric name (with labels) and the float64 value whose textual token (`%g`) is not
modelled; a `comment` line models `## <text>` (prometheus.go line 128). -/
inductive Line where
  | help (name text : String)
  | typ (name text : String)
  | value (fullName : String) (v : Float)
  | comment (text : String)

/-- Full metric name `getMetricFullName` (prometheus.go lines 232-238):
`name{node="<hostname>"}` or `name{node="<hostname>",<attr>}`.  `%q` is modelled as
plain double-quoting (hostnames contain no characters needing Go escapes). -/
def getMetricFullName (hostname : String) (m : Metric) : String :=
  if m.attr != "" then
    m.name ++ "\x7bnode=\"" ++ hostname ++ "\"," ++ m.attr ++ "\x7d"
  else
    m.name ++ "\x7bnode=\"" ++ hostname ++ "\"\x7d"

/-- Metadata writer `writeMetricMetadata` (prometheus.go lines 240-247): a
`# HELP` line if the help text is non-empty, then a `# TYPE` line if the type is
non-empty. -/
def writeMetricMetadata (m : Metric) : List Line :=
  (if m.help != "" then [Line.help m.name m.help] else []) ++
  (if m.metricType != "" then [Line.typ m.name m.metricType] else [])

/-- Lines written for one metric of a successful batch (prometheus.go lines
121-124): metadata, then the value line. -/
def metricLines (hostname : String) (m : Metric) : List Line :=
  writeMetricMetadata m ++ [Line.value (getMetricFullName hostname m) m.value]

/-- Lines written for one drained message (the `switch` of prometheus.go lines
116-129): each metric of a batch in order, or one `##` comment line for an error. -/
def renderMsg (hostname : String) : Msg → List Line
  | Msg.metrics ms => ms.flatMap (metricLines hostname)
  | Msg.error e => [Line.comment e]

/-- Response body produced by the drain loop of `WriteMetrics` for a given arrival
order of messages (prometheus.go lines 115-130). -/
def writeMetricsOutput (hostname : String) (arrived : List Msg) : List Line :=
  arrived.flatMap (renderMsg hostname)

/-- Model of `WriteMetrics` (prometheus.go lines 87-133): refresh the environment
cache if expired, drain the arrived messages writing each line to the sink (write
results are discarded, `_, _ = fmt.Fprintf(...)`), and return `nil`.  The sink is an
arbitrary stateful writer that may fail on each write. -/
def WriteMetrics {σ : Type} (write : σ → Line → σ × Option String) (s0 : σ)
    (hostname : String) (now : Nat) (netInfo devInfo : List DirEntry) (st : EnvState)
    (arrived : List Msg) : (EnvState × σ) × Option String :=
  (((ensureFreshEnv now netInfo devInfo st).2,
    (writeMetricsOutput hostname arrived).foldl (fun s l => (write s l).1) s0), none)

/-- Discriminator: message is an error. -/
def Msg.isErr : Msg → Bool
  | Msg.error _ => true
  | Msg.metrics _ => false

/-- Discriminator: message is a successful metric batch. -/
def Msg.isBatch : Msg → Bool
  | Msg.metrics _ => true
  | Msg.error _ => false

/-- Discriminator: line is a `##` comment line. -/
def Line.isComment : Line → Bool
  | Line.comment _ => true
  | _ => false

/-- Line is the `##` comment line with exactly the given text. -/
def isCommentEq (t : String) : Line → Bool
  | Line.comment s => s == t
  | _ => false

/-- Message is the error with exactly the given text. -/
def isErrEq (t : String) : Msg → Bool
  | Msg.error s => s == t
  | _ => false

/-- Line is the `# HELP` line with exactly the given name and text. -/
def isHelpEq (nm tx : String) : Line → Bool
  | Line.help a b => a == nm && b == tx
  | _ => false

/-- Positional value of a list of decimal digit characters. -/
def digitsVal : List Char → Nat
  | [] => 0
  | c :: cs => (c.toNat - 48) * 10 ^ cs.length + digitsVal cs

/-- Path of an interface statistics counter file (network.go line 37):
`path.Join(netDir, iface, "statistics", direction+"_bytes")` with
`netDir = "/sys/class/net"`. -/
def statFilePath (iface direction : String) : String :=
  "/sys/class/net" ++ "/" ++ iface ++ "/statistics/" ++ direction ++ "_bytes"

/-- `getNetworkStatMetric` (network.go lines 36-54): read the counter file, parse it
as float64, and build the counter metric; any failure is returned as the error.
The filesystem read and `strconv.ParseFloat` are external collaborators passed as
parameters. -/
def getNetworkStatMetric (readFile : String → Except String String)
    (parseFloat : String → Except String Float)
    (name help iface direction : String) : Except String Metric :=
  match readFile (statFilePath iface direction) with
  | Except.error e => Except.error e
  | Except.ok str =>
    match parseFloat str with
    | Except.error e => Except.error e
    | Except.ok v =>
      Except.ok { name := name, attr := "device=\"" ++ iface ++ "\"", value := v,
                  help := help, metricType := "counter", timestamp := 0 }

/-- Loop body of `getNetworkStatsMetrics` (network.go lines 17-34) over the cached
interface list, accumulating rx and tx metrics; on the first failed read or parse it
returns `(nil, err)`, dropping everything accumulated so far. -/
def getNetworkStatsLoop (readFile : String → Except String String)
    (parseFloat : String → Except String Float) :
    List String → List Metric → List Metric × Option String
  | [], acc => (acc, none)
  | iface :: rest, acc =>
    match getNetworkStatMetric readFile parseFloat "node_network_receive_bytes_total"
        "Total number of bytes received" iface "rx" with
    | Except.error e => ([], some e)
    | Except.ok rxMetric =>
      match getNetworkStatMetric readFile parseFloat "node_network_transmit_bytes_total"
          "Total number of bytes transmitted" iface "tx" with
      | Except.error e => ([], some e)
      | Except.ok txMetric =>
        getNetworkStatsLoop readFile parseFloat rest (acc ++ [rxMetric, txMetric])

/-- `getNetworkStatsMetrics` (network.go lines 17-34) as a Go-style
`(metrics, err)` pair over the interface list. -/
def getNetworkStatsMetrics (readFile : String → Except String String)
    (parseFloat : String → Except String Float) (ifaces : List String) :
    List Metric × Option String :=
  getNetworkStatsLoop readFile parseFloat ifaces []

/-- Discriminator for `Except`: result is an error. -/
def exceptErr {α β : Type} : Except α β → Bool
  | Except.error _ => true
  | Except.ok _ => false

/-- Speedtest server as used by `getBandwidthMetrics`: identifier plus the download
and upload speeds stored in place by the measurement calls. -/
structure Server where
  id : String
  dlSpeed : Float
  ulSpeed : Float

/-- Slice of the exporter state owned by the bandwidth producer:
`speedtestLastRun` (Go zero time modelled as `none`), the memoized
`speedtestTargets`, and the configured `SpeedtestServer` id. -/
structure BwState where
  speedtestLastRun : Option Nat
  speedtestTargets : List Server
  speedtestServer : Int

/-- Download metric of network.go lines 121-128, with timestamp
`e.speedtestLastRun` and value `s.DLSpeed * 1000 * 1000`. -/
def dlMetric (ts : Nat) (s : Server) : Metric :=
  { name := "node_network_external_download_speed_bps"
    attr := "server=\"" ++ s.id ++ "\""
    value := s.dlSpeed * 1000 * 1000
    help := ""
    metricType := ""
    timestamp := ts }

/-- Upload metric of network.go lines 136-143, with timestamp `e.speedtestLastRun`
and value `s.ULSpeed * 1000 * 1000`. -/
def ulMetric (ts : Nat) (s : Server) : Metric :=
  { name := "node_network_external_upload_speed_bps"
    attr := "server=\"" ++ s.id ++ "\""
    value := s.ulSpeed * 1000 * 1000
    help := ""
    metricType := ""
    timestamp := ts }

/-- Measurement loop of `getBandwidthMetrics` (network.go lines 111-144).  When
`expired`, each server runs a download test then an upload test (modelled as
external calls returning the server with updated speeds, since the Go library
mutates the server in place); otherwise the cached speeds are used unchanged.  On a
failed test the Go code returns the metrics accumulated so far together with the
error; the returned server list reflects the in-place updates that did happen. -/
def runServerTests (expired : Bool) (ts : Nat) (dl ul : Server → Except String Server) :
    List Server → List Metric → List Server → (List Metric × Option String) × List Server
  | [], acc, done => ((acc, none), done.reverse)
  | s :: rest, acc, done =>
    match (if expired then dl s else Except.ok s) with
    | Except.error e => ((acc, some e), done.reverse ++ s :: rest)
    | Except.ok s1 =>
      match (if expired then ul s1 else Except.ok s1) with
      | Except.error e => ((acc ++ [dlMetric ts s1], some e), done.reverse ++ s1 :: rest)
      | Except.ok s2 =>
        runServerTests expired ts dl ul rest (acc ++ [dlMetric ts s1, ulMetric ts s2]) (s2 :: done)

/-- Tail of `getBandwidthMetrics` after the discovery block (network.go lines
107-146): update `speedtestLastRun` to `now` when expired, then run the measurement
loop with the (possibly updated) last-run instant as timestamp. -/
def bwRun (expired : Bool) (dl ul : Server → Except String Server) (now : Nat)
    (st : BwState) : (List Metric × Option String) × BwState :=
  let lastRun := if expired then some now else st.speedtestLastRun
  let r := runServerTests expired (lastRun.getD 0) dl ul st.speedtestTargets [] []
  (r.1, { st with speedtestLastRun := lastRun, speedtestTargets := r.2 })

/-- `getBandwidthMetrics` (network.go lines 85-147).  `expired` is decided first
from `speedtestLastRun` (zero value or 1-hour TTL elapsed).  If the memoized target
list is empty, discovery runs through the speedtest library (`FetchUserInfo`,
`FetchServerList`, `FindServer`, passed as external collaborators over their opaque
result types `U` and `SL`), propagating any discovery error as `(nil, err)`.  Then
the measurement loop runs. -/
def getBandwidthMetrics (U SL : Type) (fetchUserInfo : Except String U)
    (fetchServerList : U → Except String SL)
    (findServer : SL → List Int → Except String (List Server))
    (downloadTest uploadTest : Server → Except String Server)
    (now : Nat) (st : BwState) : (List Metric × Option String) × BwState :=
  let expired := match st.speedtestLastRun with
    | none => true
    | some t => decide (t + speedtestValidity < now)
  if st.speedtestTargets.isEmpty then
    match fetchUserInfo with
    | Except.error e => (([], some e), st)
    | Except.ok u =>
      match fetchServerList u with
      | Except.error e => (([], some e), st)
      | Except.ok sl =>
        match findServer sl (if st.speedtestServer ≠ 0 then [st.speedtestServer] else []) with
        | Except.error e => (([], some e), st)
        | Except.ok ts => bwRun expired downloadTest uploadTest now { st with speedtestTargets := ts }
  else
    bwRun expired downloadTest uploadTest now st

/-- Sample metric used by concrete instantiations. -/
def mSample : Metric :=
  { name := "node_load1", attr := "", value := 0.45, help := "1m load average",
    metricType := "gauge", timestamp := 0 }

/-- Second sample metric used by concrete instantiations. -/
def mSample2 : Metric :=
  { name := "node_uptime_seconds", attr := "", value := 12345.0, help := "",
    metricType := "counter", timestamp := 0 }

/-- Producer result list of the C3 scenario: producer #1 returns two metrics,
producer #2 fails with "connection refused". -/
def rsScenario : List (List Metric × Option String) :=
  [([mSample, mSample2], none), ([], some "connection refused")]

/-- Sample speedtest server for concrete instantiations. -/
def srvSample : Server := { id := "21569", dlSpeed := 94.25, ulSpeed := 35.5 }

/-- Bandwidth state with a memoized target and a fresh (non-expired) last run. -/
def bwStSample : BwState :=
  { speedtestLastRun := some 100, speedtestTargets := [srvSample], speedtestServer := 0 }

/-- Directory listing of the device/interface filter example. -/
def dirSample : List DirEntry :=
  [{ name := "nvme0n1", isDir := false }, { name := "nvme0n1p1", isDir := false },
   { name := "sda", isDir := false }, { name := "sdaa", isDir := false },
   { name := "eth0", isDir := false }, { name := "lo", isDir := false }]

/-- Filesystem stub for concrete instantiations: the rx counter file of `eth1` is
unreadable, every other statistics file reads as "12345". -/
def readFileSample : String → Except String String := fun p =>
  if p = statFilePath "eth1" "rx" then
    Except.error "open /sys/class/net/eth1/statistics/rx_bytes: no such file"
  else Except.ok "12345"

/-- Parser stub for concrete instantiations: "12345" parses, everything else
fails. -/
def parseFloatSample : String → Except String Float := fun str =>
  if str = "12345" then Except.ok 12345.0 else Except.error "invalid syntax"

/-- Pointwise equal functions give equal flatMaps. -/
theorem flatMap_congr_fun {α β : Type} (f g : α → List β) (h : ∀ a, f a = g a) :
    ∀ l : List α, l.flatMap f = l.flatMap g := by
  intro l
  induction l with
  | nil => rfl
  | cons a t ih => simp [List.flatMap_cons, h a, ih]

/-- Every message is exactly one of error or batch, so the two counts add up to the
length. -/
theorem countP_err_add_batch (l : List Msg) :
    l.countP Msg.isErr + l.countP Msg.isBatch = l.length := by
  induction l with
  | nil => rfl
  | cons m t ih =>
    cases m <;> simp [List.countP_cons, Msg.isErr, Msg.isBatch] <;> omega

/-- One message per producer: `collectMsgs` preserves the length. -/
theorem collectMsgs_length (rs : List (List Metric × Option String)) :
    ∀ s : Nat, (collectMsgs s rs).length = rs.length := by
  induction rs with
  | nil => intro s; rfl
  | cons r t ih => intro s; simp [collectMsgs, ih]

/-- The lines of one rendered metric contain no line satisfying a predicate that is
false on help, type and value lines. -/
theorem countP_metricLines (p : Line → Bool)
    (hh : ∀ a b, p (Line.help a b) = false) (ht : ∀ a b, p (Line.typ a b) = false)
    (hv : ∀ a v, p (Line.value a v) = false) (hostname : String) (m : Metric) :
    (metricLines hostname m).countP p = 0 := by
  unfold metricLines writeMetricMetadata
  by_cases h1 : m.help != "" <;> by_cases h2 : m.metricType != "" <;>
    simp [h1, h2, List.countP_append, List.countP_cons, hh, ht, hv]

/-- A rendered batch contains no line satisfying a predicate that is false on help,
type and value lines. -/
theorem countP_batchLines (p : Line → Bool)
    (hh : ∀ a b, p (Line.help a b) = false) (ht : ∀ a b, p (Line.typ a b) = false)
    (hv : ∀ a v, p (Line.value a v) = false) (hostname : String) (ms : List Metric) :
    (ms.flatMap (metricLines hostname)).countP p = 0 := by
  induction ms with
  | nil => rfl
  | cons m t ih =>
    simp [List.flatMap_cons, List.countP_append, ih,
      countP_metricLines p hh ht hv hostname m]

/-- Comment-line counting in the response agrees with error-message counting in the
drained stream, for any pair of matching predicates. -/
theorem countP_output (p : Line → Bool) (q : Msg → Bool)
    (hpq : ∀ e, p (Line.comment e) = q (Msg.error e))
    (hq : ∀ ms, q (Msg.metrics ms) = false)
    (hh : ∀ a b, p (Line.help a b) = false) (ht : ∀ a b, p (Line.typ a b) = false)
    (hv : ∀ a v, p (Line.value a v) = false) (hostname : String) :
    ∀ msgs : List Msg,
      (writeMetricsOutput hostname msgs).countP p = msgs.countP q := by
  intro msgs
  induction msgs with
  | nil => rfl
  | cons m t ih =>
    cases m with
    | metrics ms =>
      simp [writeMetricsOutput, List.flatMap_cons, List.countP_append, renderMsg,
        List.countP_cons, hq, countP_batchLines p hh ht hv hostname ms] at *
      exact ih
    | error e =>
      simp [writeMetricsOutput, List.flatMap_cons, List.countP_append, renderMsg,
        List.countP_cons, hpq] at *
      omega

/-- Decimal digit characters decode back to their value. -/
theorem digitChar_toNat : ∀ m, m < 10 → (Nat.digitChar m).toNat - 48 = m := by decide

/-- Decimal digit characters are digits. -/
theorem digitChar_isDigit : ∀ m, m < 10 → (Nat.digitChar m).isDigit = true := by decide

/-- Decimal rendering is faithful: the digit characters produced by
`Nat.toDigitsCore` in base 10 decode positionally to the rendered number, given
enough fuel. -/
theorem toDigitsCore_digitsVal :
    ∀ (f n : Nat) (ds : List Char), n < 10 ^ f →
      digitsVal (Nat.toDigitsCore 10 f n ds) = n * 10 ^ ds.length + digitsVal ds := by
  intro f
  induction f with
  | zero =>
    intro n ds hn
    interval_cases n
    simp [Nat.toDigitsCore]
  | succ f ih =>
    intro n ds hn
    by_cases h10 : n / 10 = 0
    · have hlt : n < 10 := by omega
      simp only [Nat.toDigitsCore, h10, if_pos]
      have hdc : (Nat.digitChar n).toNat - 48 = n := digitChar_toNat _ hlt
      simp [digitsVal, Nat.mod_eq_of_lt hlt, hdc]
    · have hdiv : n / 10 < 10 ^ f := by
        rw [Nat.div_lt_iff_lt_mul (by omega : 0 < 10)]
        calc n < 10 ^ (f + 1) := hn
        _ = 10 ^ f * 10 := by ring
      simp only [Nat.toDigitsCore, h10, if_neg, ite_false]
      rw [ih (n / 10) (Nat.digitChar (n % 10) :: ds) hdiv]
      have hm : (Nat.digitChar (n % 10)).toNat - 48 = n % 10 :=
        digitChar_toNat _ (Nat.mod_lt _ (by omega))
      have hsplit : 10 * (n / 10) + n % 10 = n := Nat.div_add_mod n 10
      simp only [digitsVal, List.length_cons, hm]
      calc n / 10 * 10 ^ (ds.length + 1) + (n % 10 * 10 ^ ds.length + digitsVal ds)
          = (10 * (n / 10) + n % 10) * 10 ^ ds.length + digitsVal ds := by ring
      _ = n * 10 ^ ds.length + digitsVal ds := by rw [hsplit]

/-- Characters produced by `Nat.toDigitsCore` in base 10 are decimal digits
(provided the accumulator holds only digits). -/
theorem toDigitsCore_digits :
    ∀ (f n : Nat) (ds : List Char), (∀ c ∈ ds, c.isDigit = true) →
      ∀ c ∈ Nat.toDigitsCore 10 f n ds, c.isDigit = true := by
  intro f
  induction f with
  | zero => intro n ds hds; simpa [Nat.toDigitsCore] using hds
  | succ f ih =>
    intro n ds hds c hc
    have hdc : (Nat.digitChar (n % 10)).isDigit = true :=
      digitChar_isDigit _ (Nat.mod_lt _ (by omega))
    by_cases h10 : n / 10 = 0
    · simp only [Nat.toDigitsCore, h10, if_pos] at hc
      rcases List.mem_cons.1 hc with h | h
      · simpa [h] using hdc
      · exact hds c h
    · simp only [Nat.toDigitsCore, h10, if_neg, ite_false] at hc
      refine ih (n / 10) (Nat.digitChar (n % 10) :: ds) ?_ c hc
      intro c' hc'
      rcases List.mem_cons.1 hc' with h | h
      · simpa [h] using hdc
      · exact hds c' h

/-- Decimal rendering of naturals is injective. -/
theorem repr_inj {m n : Nat} (h : Nat.repr m = Nat.repr n) : m = n := by
  have hd : (Nat.repr m).data = (Nat.repr n).data := congrArg String.data h
  have hd2 : Nat.toDigitsCore 10 (m + 1) m [] = Nat.toDigitsCore 10 (n + 1) n [] := hd
  have hveq := congrArg digitsVal hd2
  have hmf : m < 10 ^ (m + 1) :=
    lt_of_lt_of_le (Nat.lt_pow_self (by norm_num) m)
      (Nat.pow_le_pow_right (by norm_num) (Nat.le_succ m))
  have hnf : n < 10 ^ (n + 1) :=
    lt_of_lt_of_le (Nat.lt_pow_self (by norm_num) n)
      (Nat.pow_le_pow_right (by norm_num) (Nat.le_succ n))
  have hm := toDigitsCore_digitsVal (m + 1) m [] hmf
  have hn := toDigitsCore_digitsVal (n + 1) n [] hnf
  simp [digitsVal] at hm hn
  rw [hm, hn] at hveq
  exact hveq

/-- Every character of the decimal rendering of a natural is a digit. -/
theorem repr_data_digits (n : Nat) : ∀ c ∈ (Nat.repr n).data, c.isDigit = true := by
  intro c hc
  exact toDigitsCore_digits (n + 1) n [] (by simp) c hc

/-- Two digit runs followed by a colon and arbitrary tails coincide only
componentwise. -/
theorem digits_colon_split :
    ∀ (A B u v : List Char), (∀ c ∈ A, c.isDigit = true) → (∀ c ∈ B, c.isDigit = true) →
      A ++ ':' :: u = B ++ ':' :: v → A = B ∧ u = v := by
  intro A
  induction A with
  | nil =>
    intro B u v _ hB h
    cases B with
    | nil => simpa using h
    | cons b B' =>
      exfalso
      simp only [List.nil_append, List.cons_append, List.cons.injEq] at h
      have hb := hB b (by simp)
      rw [← h.1] at hb
      simp [Char.isDigit] at hb
  | cons a A' ih =>
    intro B u v hA hB h
    cases B with
    | nil =>
      exfalso
      simp only [List.nil_append, List.cons_append, List.cons.injEq] at h
      have ha := hA a (by simp)
      rw [h.1] at ha
      simp [Char.isDigit] at ha
    | cons b B' =>
      simp only [List.cons_append, List.cons.injEq] at h
      obtain ⟨hab, htail⟩ := h
      obtain ⟨h1, h2⟩ := ih B' u v (fun c hc => hA c (by simp [hc]))
        (fun c hc => hB c (by simp [hc])) htail
      exact ⟨by rw [hab, h1], h2⟩

/-- The wrapped producer error text determines the producer position and the
cause. -/
theorem errMsg_inj {i j : Nat} {c c' : String} (h : errMsg i c = errMsg j c') :
    i = j ∧ c = c' := by
  unfold errMsg at h
  have hd := congrArg String.data h
  simp only [String.data_append] at hd
  rw [List.append_assoc, List.append_assoc, List.append_assoc, List.append_assoc] at hd
  have hd2 := List.append_cancel_left hd
  have hcast : ∀ s : String, (": ").data ++ s.data = ':' :: ' ' :: s.data := by
    intro s; rfl
  rw [hcast c, hcast c'] at hd2
  have hsplit := digits_colon_split (Nat.repr (1 + i)).data (Nat.repr (1 + j)).data
    (' ' :: c.data) (' ' :: c'.data) (repr_data_digits _) (repr_data_digits _) hd2
  obtain ⟨hrepr, htails⟩ := hsplit
  have hij : 1 + i = 1 + j := repr_inj (String.ext hrepr)
  have hc : c = c' := String.ext (by simpa using htails)
  exact ⟨by omega, hc⟩

/-- Worker messages carry their producer position: positions below the start tag
never occur. -/
theorem collectMsgs_countP_zero (c : String) :
    ∀ (rs : List (List Metric × Option String)) (s k : Nat), k < s →
      (collectMsgs s rs).countP (isErrEq (errMsg k c)) = 0 := by
  intro rs
  induction rs with
  | nil => intro s k _; rfl
  | cons r rest ih =>
    intro s k hk
    simp only [collectMsgs, List.countP_cons]
    have h1 : (collectMsgs (s + 1) rest).countP (isErrEq (errMsg k c)) = 0 :=
      ih (s + 1) k (by omega)
    have h2 : isErrEq (errMsg k c) (fetchMetricsWorker s r) = false := by
      unfold fetchMetricsWorker
      cases hr : r.2 with
      | none => rfl
      | some e =>
        simp only [isErrEq]
        refine beq_eq_false_iff_ne.mpr ?_
        intro heq
        have := (errMsg_inj heq).1
        omega
    rw [h1, h2]
    simp

/-- A producer failing at 0-based position `n` with cause `c` contributes exactly
one message equal to its wrapped error, and no other worker produces that
message. -/
theorem collectMsgs_countP_one (c : String) :
    ∀ (rs : List (List Metric × Option String)) (s n : Nat) (ms : List Metric),
      rs[n]? = some (ms, some c) →
      (collectMsgs s rs).countP (isErrEq (errMsg (s + n) c)) = 1 := by
  intro rs
  induction rs with
  | nil => intro s n ms h; simp at h
  | cons r rest ih =>
    intro s n ms h
    cases n with
    | zero =>
      simp only [List.getElem?_cons_zero, Option.some.injEq] at h
      subst h
      simp only [collectMsgs, List.countP_cons, Nat.add_zero]
      have h0 := collectMsgs_countP_zero c rest (s + 1) s (by omega)
      have hhd : isErrEq (errMsg s c) (fetchMetricsWorker s (ms, some c)) = true := by
        simp [fetchMetricsWorker, isErrEq]
      rw [h0, hhd]
      simp
    | succ n' =>
      simp only [List.getElem?_cons_succ] at h
      have htail := ih (s + 1) n' ms h
      have hs : s + 1 + n' = s + (n' + 1) := by omega
      rw [hs] at htail
      simp only [collectMsgs, List.countP_cons, htail]
      have hh : isErrEq (errMsg (s + (n' + 1)) c) (fetchMetricsWorker s r) = false := by
        unfold fetchMetricsWorker
        cases hr : r.2 with
        | none => rfl
        | some e =>
          simp only [isErrEq]
          refine beq_eq_false_iff_ne.mpr ?_
          intro heq
          have := (errMsg_inj heq).1
          omega
      rw [hh]
      simp

/-- The message list is positionally the image of the producer result list under
the worker. -/
theorem collectMsgs_getElem (rs : List (List Metric × Option String)) :
    ∀ (s j : Nat) (r : List Metric × Option String), rs[j]? = some r →
      (collectMsgs s rs)[j]? = some (fetchMetricsWorker (s + j) r) := by
  induction rs with
  | nil => intro s j r h; simp at h
  | cons r0 rest ih =>
    intro s j r h
    cases j with
    | zero =>
      simp only [List.getElem?_cons_zero, Option.some.injEq] at h
      subst h
      simp [collectMsgs]
    | succ j' =>
      simp only [List.getElem?_cons_succ] at h
      have := ih (s + 1) j' r h
      have hs : s + 1 + j' = s + (j' + 1) := by omega
      rw [hs] at this
      simpa [collectMsgs] using this

/-- With the speedtest TTL not elapsed, the measurement loop performs no test: it
emits one download and one upload metric per memoized server from the cached
speeds and leaves the server list unchanged. -/
theorem runServerTests_fresh (ts : Nat) (dl ul : Server → Except String Server) :
    ∀ (l : List Server) (acc : List Metric) (done : List Server),
      runServerTests false ts dl ul l acc done =
        ((acc ++ l.flatMap (fun s => [dlMetric ts s, ulMetric ts s]), none),
         done.reverse ++ l) := by
  intro l
  induction l with
  | nil => intro acc done; simp [runServerTests]
  | cons s rest ih =>
    intro acc done
    simp [runServerTests, ih, List.flatMap_cons, List.reverse_cons, List.append_assoc]

/-- No name starts with both `nvme` and `sd`. -/
theorem nvme_sd_excl (s : String) : ¬(hasPre s "nvme" = true ∧ hasPre s "sd" = true) := by
  rintro ⟨h1, h2⟩
  unfold hasPre at h1 h2
  rw [List.isPrefixOf_iff_prefix] at h1 h2
  obtain ⟨t1, e1⟩ := h1
  obtain ⟨t2, e2⟩ := h2
  have he : ("nvme".data) ++ t1 = ("sd".data) ++ t2 := by rw [e1, e2]
  have hn : "nvme".data = ['n', 'v', 'm', 'e'] := rfl
  have hs : "sd".data = ['s', 'd'] := rfl
  rw [hn, hs] at he
  simp at he

/-- On a non-directory entry, the device loop's skip conditions are equivalent to
the spec's qualifying-name pattern. -/
theorem readDevices_cons_eq (d : DirEntry) (hd : d.isDir = false) (rest : List DirEntry) :
    readDevices (d :: rest) =
      if specDeviceOk d.name then d.name :: readDevices rest else readDevices rest := by
  simp only [readDevices, hd, Bool.false_or]
  by_cases h1 : hasPre d.name "nvme"
  · have h2 : hasPre d.name "sd" = false := by
      cases hsd : hasPre d.name "sd"
      · rfl
      · exact absurd ⟨h1, hsd⟩ (nvme_sd_excl d.name)
    by_cases h7 : d.name.length = 7
    · simp [specDeviceOk, h1, h2, h7]
    · simp [specDeviceOk, h1, h2, h7]
  · have h1' : hasPre d.name "nvme" = false := by simpa using h1
    by_cases hsd : hasPre d.name "sd"
    · by_cases h3 : d.name.length = 3
      · simp [specDeviceOk, h1', hsd, h3]
      · simp [specDeviceOk, h1', hsd, h3]
    · have hsd' : hasPre d.name "sd" = false := by simpa using hsd
      simp [specDeviceOk, h1', hsd']

/-- Refresh step on an expired cache: runs discovery. -/
theorem ensureFreshEnv_expired (now : Nat) (netInfo devInfo : List DirEntry)
    (st : EnvState) (h : st.envExpiry < now) :
    ensureFreshEnv now netInfo devInfo st = (true, readEnvironment netInfo devInfo st) := by
  unfold ensureFreshEnv
  rw [if_pos h]

/-- Refresh step on a fresh cache: no discovery, state unchanged. -/
theorem ensureFreshEnv_fresh (now : Nat) (netInfo devInfo : List DirEntry)
    (st : EnvState) (h : ¬ st.envExpiry < now) :
    ensureFreshEnv now netInfo devInfo st = (false, st) := by
  unfold ensureFreshEnv
  rw [if_neg h]

/-- C1, counterexample: a request at t=301s observing the expired cache whose stored
expiry is t=300s triggers a refresh, and the refresh leaves the new expiry at
t=600s, not at the claimed request-anchored t=301s+300s=601s (prometheus.go line
224 adds the TTL to the previously stored expiry). -/
theorem c1_env_expiry_counterexample :
    (ensureFreshEnv 301 [] [] { ifaces := [], devices := [], envExpiry := 300 }).1 = true ∧
    (ensureFreshEnv 301 [] [] { ifaces := [], devices := [], envExpiry := 300 }).2.envExpiry
      = 600 ∧
    ¬ (ensureFreshEnv 301 [] [] { ifaces := [], devices := [], envExpiry := 300 }).2.envExpiry
      = 301 + envValidity := by
  decide

/-- C1, amended: when a request observes an expired Environment Cache and refreshes
it, the new expiry is the previously stored expiry plus the 5-minute TTL (anchored
to the stored expiry, not to the request's observation time and not to refresh
completion time); in particular a request at t=301s after a refresh whose expiry
was t=300s leaves the new expiry at t=600s. -/
theorem c1_env_expiry_amended (now : Nat) (netInfo devInfo : List DirEntry)
    (st : EnvState) (h : st.envExpiry < now) :
    (ensureFreshEnv now netInfo devInfo st).2.envExpiry = st.envExpiry + envValidity := by
  rw [ensureFreshEnv_expired now netInfo devInfo st h]
  rfl

/-- C1 witness: the amended statement at the scenario's concrete input. -/
theorem c1_env_expiry_amended_witness :
    (ensureFreshEnv 301 [] [] { ifaces := [], devices := [], envExpiry := 300 }).2.envExpiry
      = 300 + envValidity :=
  c1_env_expiry_amended 301 [] [] { ifaces := [], devices := [], envExpiry := 300 }
    (by decide)

/-- C6: for two requests where the first observes an expired cache and the second's
observation time does not fall past the advanced stored expiry (both inside the
5-minute TTL window of the refreshed cache), exactly one discovery pass runs: the
first call refreshes, the second observes a non-expired cache and performs no
rediscovery. -/
theorem c6_refresh_idempotent (t1 t2 : Nat) (netInfo devInfo : List DirEntry)
    (st : EnvState) (h1 : st.envExpiry < t1) (h2 : t2 ≤ st.envExpiry + envValidity) :
    (ensureFreshEnv t1 netInfo devInfo st).1 = true ∧
    (ensureFreshEnv t2 netInfo devInfo (ensureFreshEnv t1 netInfo devInfo st).2).1
      = false := by
  have e1 := ensureFreshEnv_expired t1 netInfo devInfo st h1
  refine ⟨by rw [e1], ?_⟩
  have hexp : (ensureFreshEnv t1 netInfo devInfo st).2.envExpiry
      = st.envExpiry + envValidity := by
    rw [e1]
    rfl
  have e2 := ensureFreshEnv_fresh t2 netInfo devInfo
    (ensureFreshEnv t1 netInfo devInfo st).2 (by omega)
  rw [e2]

/-- C6 witness: requests at t=301s and t=550s over a cache whose expiry is t=300s. -/
theorem c6_refresh_idempotent_witness :
    (ensureFreshEnv 301 [] [] { ifaces := [], devices := [], envExpiry := 300 }).1 = true ∧
    (ensureFreshEnv 550 [] []
      (ensureFreshEnv 301 [] [] { ifaces := [], devices := [], envExpiry := 300 }).2).1
      = false :=
  c6_refresh_idempotent 301 550 [] [] { ifaces := [], devices := [], envExpiry := 300 }
    (by decide) (by decide)

/-- C9: WriteMetrics returns nil for every input: regardless of the sink, its write
failures (discarded), the environment state, and how many producers failed, the
returned error is always `none`. -/
theorem c9_writeMetrics_returns_nil (σ : Type) (write : σ → Line → σ × Option String)
    (s0 : σ) (hostname : String) (now : Nat) (netInfo devInfo : List DirEntry)
    (st : EnvState) (arrived : List Msg) :
    (WriteMetrics write s0 hostname now netInfo devInfo st arrived).2 = none := rfl

/-- C2: for every producer set and every arrival order of the per-worker messages,
the number of error messages plus the number of successful metric batches drained
by WriteMetrics equals the number of producers, and each error message yields
exactly one comment line in the response. -/
theorem c2_no_task_lost_or_duplicated (hostname : String)
    (rs : List (List Metric × Option String)) (arrived : List Msg)
    (hperm : arrived.Perm (collectMsgs 0 rs)) :
    arrived.countP Msg.isErr + arrived.countP Msg.isBatch = rs.length ∧
    (writeMetricsOutput hostname arrived).countP Line.isComment
      = arrived.countP Msg.isErr := by
  constructor
  · rw [countP_err_add_batch arrived, hperm.length_eq, collectMsgs_length]
  · exact countP_output Line.isComment Msg.isErr (fun e => rfl) (fun ms => rfl)
      (fun a b => rfl) (fun a b => rfl) (fun a v => rfl) hostname arrived

/-- C2 witness: the two-producer scenario, delivered in declaration order. -/
theorem c2_witness :
    (collectMsgs 0 rsScenario).countP Msg.isErr
      + (collectMsgs 0 rsScenario).countP Msg.isBatch = rsScenario.length :=
  (c2_no_task_lost_or_duplicated "host" rsScenario (collectMsgs 0 rsScenario)
    (List.Perm.refl _)).1

/-- C3: for every producer set and arrival order, if the producer at 0-based
position n (1-based position N = n+1) fails with cause c, the response contains
exactly one diagnostic comment line with the wrapped text
"retrieve metric #N: c" standing in for that producer's output, and every metric of
every successful producer still renders its value line in the same response. -/
theorem c3_diagnostic_line (hostname : String)
    (rs : List (List Metric × Option String)) (arrived : List Msg)
    (n : Nat) (ms : List Metric) (c : String)
    (hperm : arrived.Perm (collectMsgs 0 rs))
    (hn : rs[n]? = some (ms, some c)) :
    (writeMetricsOutput hostname arrived).countP (isCommentEq (errMsg n c)) = 1 ∧
    ∀ (j : Nat) (ms' : List Metric), rs[j]? = some (ms', none) →
      ∀ m ∈ ms', Line.value (getMetricFullName hostname m) m.value
        ∈ writeMetricsOutput hostname arrived := by
  constructor
  · rw [countP_output (isCommentEq (errMsg n c)) (isErrEq (errMsg n c)) (fun e => rfl)
      (fun ms => rfl) (fun a b => rfl) (fun a b => rfl) (fun a v => rfl) hostname arrived]
    rw [List.Perm.countP_eq _ hperm]
    have := collectMsgs_countP_one c rs 0 n ms hn
    simpa using this
  · intro j ms' hj m hm
    have hg := collectMsgs_getElem rs 0 j (ms', none) hj
    have hw : fetchMetricsWorker (0 + j) (ms', none) = Msg.metrics ms' := rfl
    rw [hw] at hg
    have hmem : Msg.metrics ms' ∈ arrived := hperm.mem_iff.mpr (List.getElem?_mem hg)
    unfold writeMetricsOutput
    refine List.mem_flatMap.mpr ⟨Msg.metrics ms', hmem, ?_⟩
    show Line.value (getMetricFullName hostname m) m.value ∈ ms'.flatMap (metricLines hostname)
    refine List.mem_flatMap.mpr ⟨m, hm, ?_⟩
    unfold metricLines
    exact List.mem_append_right _ (by simp)

/-- C3 witness: producer #1 returns two metrics, producer #2 fails with
"connection refused"; the response carries exactly one line for
"retrieve metric #2: connection refused". -/
theorem c3_diagnostic_line_witness :
    (writeMetricsOutput "host" (collectMsgs 0 rsScenario)).countP
      (isCommentEq (errMsg 1 "connection refused")) = 1 :=
  (c3_diagnostic_line "host" rsScenario (collectMsgs 0 rsScenario) 1 [] "connection refused"
    (List.Perm.refl _) rfl).1

/-- C4: for each metric instance of a rendered batch, in order, the renderer emits
a HELP line iff the metric's help is non-empty, then a TYPE line iff its type is
non-empty, immediately before its value line; metadata is emitted once per metric
value instance with no deduplication across repeated names, e.g. a batch holding
the same metric twice renders its HELP line twice. -/
theorem c4_metadata_per_instance (hostname : String) (ms : List Metric) (m : Metric) :
    renderMsg hostname (Msg.metrics ms) = ms.flatMap (fun x =>
      (if x.help = "" then [] else [Line.help x.name x.help]) ++
      ((if x.metricType = "" then [] else [Line.typ x.name x.metricType]) ++
        [Line.value (getMetricFullName hostname x) x.value])) ∧
    (m.help ≠ "" →
      (writeMetricsOutput hostname [Msg.metrics [m, m]]).countP
        (isHelpEq m.name m.help) = 2) := by
  constructor
  · show ms.flatMap (metricLines hostname) = _
    refine flatMap_congr_fun _ _ ?_ ms
    intro x
    unfold metricLines writeMetricMetadata
    by_cases h1 : x.help = "" <;> by_cases h2 : x.metricType = "" <;> simp [h1, h2]
  · intro hm
    have hcnt : (metricLines hostname m).countP (isHelpEq m.name m.help) = 1 := by
      unfold metricLines writeMetricMetadata
      by_cases h2 : m.metricType = "" <;>
        simp [hm, h2, List.countP_append, List.countP_cons, isHelpEq]
    simp [writeMetricsOutput, renderMsg, List.flatMap_cons, List.countP_append, hcnt]

/-- C4 witness: a batch with the same help-carrying metric twice yields its HELP
line twice. -/
theorem c4_metadata_per_instance_witness :
    (writeMetricsOutput "host" [Msg.metrics [mSample, mSample]]).countP
      (isHelpEq "node_load1" "1m load average") = 2 :=
  (c4_metadata_per_instance "host" [] mSample).2 (by decide)

/-- Interface filter agrees with keeping exactly the names with prefix `eth`. -/
theorem readIfaces_eq_filter (info : List DirEntry) :
    readIfaces info = (info.map (fun d => d.name)).filter (fun s => hasPre s "eth") := by
  induction info with
  | nil => rfl
  | cons d rest ih =>
    simp only [readIfaces, List.map_cons, List.filter_cons]
    by_cases h : hasPre d.name "eth"
    · simp [h, ih]
    · simp [h, ih]

/-- Device filter agrees with keeping exactly the spec's qualifying names, on
non-directory entries. -/
theorem readDevices_eq_filter :
    ∀ info : List DirEntry, (∀ e ∈ info, e.isDir = false) →
      readDevices info = (info.map (fun d => d.name)).filter specDeviceOk := by
  intro info
  induction info with
  | nil => intro _; rfl
  | cons d rest ih =>
    intro hfiles
    have hd := hfiles d (by simp)
    rw [readDevices_cons_eq d hd rest, ih (fun e he => hfiles e (by simp [he]))]
    simp only [List.map_cons, List.filter_cons]

/-- C5: on non-directory entries, environment discovery keeps exactly the device
names that start with `nvme` and have length 7 or start with `sd` and have length
3, and exactly the interface names that start with `eth`. -/
theorem c5_env_filters (info : List DirEntry)
    (hfiles : ∀ e ∈ info, e.isDir = false) :
    readDevices info = (info.map (fun d => d.name)).filter specDeviceOk ∧
    readIfaces info = (info.map (fun d => d.name)).filter (fun s => hasPre s "eth") :=
  ⟨readDevices_eq_filter info hfiles, readIfaces_eq_filter info⟩

/-- C5 witness: the example listing keeps exactly nvme0n1 and sda as devices and
eth0 as interface. -/
theorem c5_env_filters_witness :
    readDevices dirSample = ["nvme0n1", "sda"] ∧ readIfaces dirSample = ["eth0"] := by
  have h := c5_env_filters dirSample (by decide)
  exact ⟨h.1.trans (by decide), h.2.trans (by decide)⟩

/-- Loop form of the all-or-nothing behaviour: a failing interface anywhere in the
remaining list forces the `(nil, err)` return, whatever was accumulated. -/
theorem getNetworkStatsLoop_err (readFile : String → Except String String)
    (parseFloat : String → Except String Float) (i : String)
    (hfail :
      exceptErr (getNetworkStatMetric readFile parseFloat
        "node_network_receive_bytes_total" "Total number of bytes received" i "rx") = true ∨
      exceptErr (getNetworkStatMetric readFile parseFloat
        "node_network_transmit_bytes_total" "Total number of bytes transmitted" i "tx")
        = true) :
    ∀ (ifaces : List String) (acc : List Metric), i ∈ ifaces →
      ∃ e, getNetworkStatsLoop readFile parseFloat ifaces acc = ([], some e) := by
  intro ifaces
  induction ifaces with
  | nil => intro acc h; simp at h
  | cons hd tl ih =>
    intro acc hmem
    simp only [getNetworkStatsLoop]
    cases hrx : getNetworkStatMetric readFile parseFloat
        "node_network_receive_bytes_total" "Total number of bytes received" hd "rx" with
    | error e => exact ⟨e, rfl⟩
    | ok rxm =>
      cases htx : getNetworkStatMetric readFile parseFloat
          "node_network_transmit_bytes_total" "Total number of bytes transmitted"
          hd "tx" with
      | error e => exact ⟨e, rfl⟩
      | ok txm =>
        rcases List.mem_cons.1 hmem with rfl | hmem2
        · exfalso
          rcases hfail with hf | hf
          · rw [hrx] at hf
            exact absurd hf (by simp [exceptErr])
          · rw [htx] at hf
            exact absurd hf (by simp [exceptErr])
        · obtain ⟨e, he⟩ := ih (acc ++ [rxm, txm]) hmem2
          exact ⟨e, he⟩

/-- C10: the network-stats producer is all-or-nothing within one collection pass:
if reading or parsing the rx or tx byte counter of any interface in the cached list
fails, the producer returns `(nil, err)` — an error and no metrics — discarding the
metrics already collected for earlier interfaces of the same pass. -/
theorem c10_all_or_nothing (readFile : String → Except String String)
    (parseFloat : String → Except String Float) (ifaces : List String) (i : String)
    (hi : i ∈ ifaces)
    (hfail :
      exceptErr (getNetworkStatMetric readFile parseFloat
        "node_network_receive_bytes_total" "Total number of bytes received" i "rx") = true ∨
      exceptErr (getNetworkStatMetric readFile parseFloat
        "node_network_transmit_bytes_total" "Total number of bytes transmitted" i "tx")
        = true) :
    ∃ e, getNetworkStatsMetrics readFile parseFloat ifaces = ([], some e) :=
  getNetworkStatsLoop_err readFile parseFloat i hfail ifaces [] hi

/-- C10 witness: eth0's counters read fine, eth1's rx counter fails; the producer
returns no metrics, dropping eth0's two already-collected metrics. -/
theorem c10_all_or_nothing_witness :
    ∃ e, getNetworkStatsMetrics readFileSample parseFloatSample ["eth0", "eth1"]
      = ([], some e) :=
  c10_all_or_nothing readFileSample parseFloatSample ["eth0", "eth1"] "eth1"
    (by decide) (Or.inl (by decide))

/-- C8: with a non-empty memoized target list, the bandwidth producer never
re-discovers servers (its result is independent of the discovery collaborators, at
any time), and when its 1-hour TTL has not elapsed it performs no measurement: it
emits one download and one upload metric per server from the cached speeds, carrying
the cached last-run timestamp, and leaves its state unchanged. -/
theorem c8_bandwidth_caching (U SL : Type) (fetchUserInfo : Except String U)
    (fetchServerList : U → Except String SL)
    (findServer : SL → List Int → Except String (List Server))
    (downloadTest uploadTest : Server → Except String Server)
    (now : Nat) (st : BwState)
    (hne : st.speedtestTargets ≠ []) :
    (∀ (U2 SL2 : Type) (fui2 : Except String U2) (fsl2 : U2 → Except String SL2)
        (fsrv2 : SL2 → List Int → Except String (List Server)),
      getBandwidthMetrics U2 SL2 fui2 fsl2 fsrv2 downloadTest uploadTest now st
        = getBandwidthMetrics U SL fetchUserInfo fetchServerList findServer
            downloadTest uploadTest now st) ∧
    (∀ t : Nat, st.speedtestLastRun = some t → ¬ t + speedtestValidity < now →
      getBandwidthMetrics U SL fetchUserInfo fetchServerList findServer
          downloadTest uploadTest now st
        = ((st.speedtestTargets.flatMap (fun s => [dlMetric t s, ulMetric t s]), none),
           st)) := by
  obtain ⟨lr, tg, cfg⟩ := st
  have he : (List.isEmpty tg) = false := List.isEmpty_eq_false.mpr hne
  constructor
  · intro U2 SL2 fui2 fsl2 fsrv2
    simp [getBandwidthMetrics, he]
  · intro t hlr hfr
    have hlr2 : lr = some t := hlr
    subst hlr2
    simp [getBandwidthMetrics, he, bwRun, hfr, runServerTests_fresh]

/-- C8 witness: a memoized server with last run at t=100s queried at t=200s emits
the cached speeds with timestamp 100 and an unchanged state, even though every
discovery and measurement collaborator would fail. -/
theorem c8_bandwidth_caching_witness :
    getBandwidthMetrics Unit Unit (Except.ok ()) (fun _ => Except.ok ())
      (fun _ _ => Except.error "discovery unavailable")
      (fun _ => Except.error "download failed") (fun _ => Except.error "upload failed")
      200 bwStSample
      = ((bwStSample.speedtestTargets.flatMap
            (fun s => [dlMetric 100 s, ulMetric 100 s]), none), bwStSample) :=
  (c8_bandwidth_caching Unit Unit (Except.ok ()) (fun _ => Except.ok ())
    (fun _ _ => Except.error "discovery unavailable")
    (fun _ => Except.error "download failed") (fun _ => Except.error "upload failed")
    200 bwStSample (List.cons_ne_nil _ _)).2 100 rfl (by decide)
